import Mathlib

/-!
Shallow embedding of the orbital propagation and collision-prediction engine
of the space-debris visualization app, together with proofs of the spec's
claims about it.  Numeric (JS `number`) values are modelled as real numbers,
`undefined`-able fields as `Option`, and the `for` loops of the pairwise
scans as iteration over index ranges.
-/

namespace Spaceapp

/-- A 3D vector, modelling `THREE.Vector3`. -/
structure Vec3 where
  x : ℝ
  y : ℝ
  z : ℝ

/-- Euclidean distance between two points, modelling `THREE.Vector3.distanceTo`. -/
noncomputable def distanceTo (p q : Vec3) : ℝ :=
  Real.sqrt ((p.x - q.x) * (p.x - q.x) + (p.y - q.y) * (p.y - q.y) +
    (p.z - q.z) * (p.z - q.z))

/-- Euclidean magnitude of a vector (its distance from the origin). -/
noncomputable def magnitude (v : Vec3) : ℝ :=
  Real.sqrt (v.x * v.x + v.y * v.y + v.z * v.z)

/-- The four object categories of the `SpaceObject.type` union. -/
inductive ObjectType where
  | satellite
  | asteroid
  | debris
  | comet
deriving DecidableEq

/-- The `SpaceObject` interface.  Optional fields are `Option`-valued. -/
structure SpaceObject where
  id : String
  name : String
  type : ObjectType
  orbitRadius : ℝ
  speed : ℝ
  phase : ℝ
  inclination : ℝ
  size : ℝ
  eccentricity : ℝ
  perihelion : Option ℝ := none
  aphelion : Option ℝ := none
  orbitalPeriod : Option ℝ := none
  position : Option Vec3 := none

/-- The `Collision` interface: a detected or predicted close approach. -/
structure Collision where
  obj1 : SpaceObject
  obj2 : SpaceObject
  distance : ℝ
  timeToCollision : Option ℝ := none

/-- `const EARTH_RADIUS = 1`. -/
def EARTH_RADIUS : ℝ := 1

/-- `const MIN_ORBIT_RADIUS = EARTH_RADIUS * 1.5`. -/
noncomputable def MIN_ORBIT_RADIUS : ℝ := EARTH_RADIUS * 1.5

/-- `const MAX_ORBIT_RADIUS = EARTH_RADIUS * 10`. -/
def MAX_ORBIT_RADIUS : ℝ := EARTH_RADIUS * 10

/-- `const MIN_ORBIT_DISTANCE = Math.max(EARTH_RADIUS * 1.2, MIN_ORBIT_RADIUS)`. -/
noncomputable def MIN_ORBIT_DISTANCE : ℝ :=
  max (EARTH_RADIUS * 1.2) MIN_ORBIT_RADIUS

/-- The body of the inner pairwise loop of `detectCollisions`: when both
bodies carry a position, compare their distance against the sum of sizes and
possibly produce an event (with no `timeToCollision`). -/
noncomputable def pairEvent (obj1 obj2 : SpaceObject) : Option Collision :=
  match obj1.position, obj2.position with
  | some p1, some p2 =>
      let distance := distanceTo p1 p2
      if distance < obj1.size + obj2.size then
        some { obj1 := obj1, obj2 := obj2, distance := distance }
      else
        none
  | _, _ => none

/-- `detectCollisions`: the exhaustive pairwise scan
`for (i = 0; i < n; i++) for (j = i + 1; j < n; j++)`, pushing an event for
each pair whose distance is below the sum-of-radii threshold. -/
noncomputable def detectCollisions (objects : List SpaceObject) : List Collision :=
  (List.range objects.length).flatMap fun i =>
    (List.range' (i + 1) (objects.length - (i + 1))).filterMap fun j =>
      match objects[i]?, objects[j]? with
      | some obj1, some obj2 => pairEvent obj1 obj2
      | _, _ => none

/-- The per-step position computed inside `predictCollisions`:
`t = step * stepSize * obj.speed`, `a = max(orbitRadius, MIN_ORBIT_DISTANCE)`,
`b = a * sqrt(1 - e*e)`, `angle = t + phase`, and the tilted planar point.
Note there is NO radial re-clamp here. -/
noncomputable def predictedPosition (obj : SpaceObject) (step : ℕ) (stepSize : ℝ) : Vec3 :=
  let t := (step : ℝ) * stepSize * obj.speed
  let a := max obj.orbitRadius MIN_ORBIT_DISTANCE
  let b := a * Real.sqrt (1 - obj.eccentricity * obj.eccentricity)
  let angle := t + obj.phase
  { x := a * Real.cos angle * Real.cos obj.inclination
    y := b * Real.sin angle
    z := a * Real.cos angle * Real.sin obj.inclination }

/-- The `futurePositions` array built per step inside `predictCollisions`:
every object with its position overwritten by the per-step position. -/
noncomputable def futureObjects (objects : List SpaceObject) (step : ℕ)
    (stepSize : ℝ) : List SpaceObject :=
  objects.map fun obj => { obj with position := some (predictedPosition obj step stepSize) }

/-- `predictCollisions`: for `step` in `1..=timeSteps`, propagate all bodies,
run the detector, and tag each event with `timeToCollision = step * stepSize`. -/
noncomputable def predictCollisions (objects : List SpaceObject) (timeSteps : ℕ)
    (stepSize : ℝ) : List Collision :=
  (List.range' 1 timeSteps).flatMap fun step =>
    (detectCollisions (futureObjects objects step stepSize)).map fun c =>
      { c with timeToCollision := some ((step : ℝ) * stepSize) }

/-- The pre-clamp position of the `useFrame` propagation in `SpaceObject`
(the closed form before the minimum-distance re-clamp). -/
noncomputable def preClampPosition (obj : SpaceObject) (elapsed : ℝ) : Vec3 :=
  let t := elapsed * obj.speed
  let a := max obj.orbitRadius MIN_ORBIT_DISTANCE
  let b := a * Real.sqrt (1 - obj.eccentricity * obj.eccentricity)
  let angle := t + obj.phase
  { x := a * Real.cos angle * Real.cos obj.inclination
    y := b * Real.sin angle
    z := a * Real.cos angle * Real.sin obj.inclination }

/-- The full `useFrame` propagation of `SpaceObject` (the Propagator of
§4.1): the closed-form position followed by the radial re-clamp
`scale = max(distance, MIN_ORBIT_DISTANCE) / distance`. -/
noncomputable def propagate (obj : SpaceObject) (elapsed : ℝ) : Vec3 :=
  let t := elapsed * obj.speed
  let a := max obj.orbitRadius MIN_ORBIT_DISTANCE
  let b := a * Real.sqrt (1 - obj.eccentricity * obj.eccentricity)
  let angle := t + obj.phase
  let x := a * Real.cos angle * Real.cos obj.inclination
  let y := b * Real.sin angle
  let z := a * Real.cos angle * Real.sin obj.inclination
  let distance := Real.sqrt (x * x + y * y + z * z)
  let scale := max distance MIN_ORBIT_DISTANCE / distance
  { x := x * scale, y := y * scale, z := z * scale }

/-- Modelled from the spec: the §4.1 Propagator algorithm exactly as the spec
words it (steps 1-6), used to compare the code's propagation against the
spec's closed form.  Step 6 is the conditional radial re-clamp. -/
noncomputable def specPosition (body : SpaceObject) (t : ℝ) : Vec3 :=
  let angle := t * body.speed + body.phase
  let a := max body.orbitRadius MIN_ORBIT_DISTANCE
  let b := a * Real.sqrt (1 - body.eccentricity ^ 2)
  let xOrbit := a * Real.cos angle
  let yOrbit := b * Real.sin angle
  let x := xOrbit * Real.cos body.inclination
  let y := yOrbit
  let z := xOrbit * Real.sin body.inclination
  let distance := Real.sqrt (x * x + y * y + z * z)
  if distance < MIN_ORBIT_DISTANCE then
    { x := x * (MIN_ORBIT_DISTANCE / distance)
      y := y * (MIN_ORBIT_DISTANCE / distance)
      z := z * (MIN_ORBIT_DISTANCE / distance) }
  else
    { x := x, y := y, z := z }

/-- The key-equality test of the consumer's de-duplication filter:
`c.obj1.id === collision.obj1.id && c.obj2.id === collision.obj2.id`. -/
def sameKey (c collision : Collision) : Bool :=
  c.obj1.id == collision.obj1.id && c.obj2.id == collision.obj2.id

/-- The consumer's de-duplication:
`allCollisions.filter((collision, index, self) => index === self.findIndex(c => sameKey c collision))`,
keeping an element exactly when its index is the first index holding its key. -/
def uniqueCollisions (l : List Collision) : List Collision :=
  (List.range l.length).filterMap fun i =>
    match l[i]? with
    | some c => if l.findIdx (fun c2 => sameKey c2 c) = i then some c else none
    | none => none

/-- The consumer's sort comparator:
`if (a.timeToCollision && b.timeToCollision) return a.timeToCollision - b.timeToCollision; return a.distance - b.distance`.
A `timeToCollision` of `0` is falsy in JS, hence the nonzero tests. -/
noncomputable def collisionCmp (a b : Collision) : ℝ :=
  match a.timeToCollision, b.timeToCollision with
  | some ta, some tb =>
      if ta ≠ 0 ∧ tb ≠ 0 then ta - tb else a.distance - b.distance
  | _, _ => a.distance - b.distance

/-- The merged pool built inside `checkCollisions`:
`allCollisions = [...prevCollisions, ...currentCollisions, ...predictedCollisions]`
with `currentCollisions = detectCollisions(objects)` and
`predictedCollisions = predictCollisions(objects, 100, 0.1)`. -/
noncomputable def allCollisionsOf (prevCollisions : List Collision)
    (objects : List SpaceObject) : List Collision :=
  prevCollisions ++ (detectCollisions objects ++ predictCollisions objects 100 (0.1 : ℝ))

/-- The consumer's `checkCollisions` merge: de-duplicate the pool by id pair,
sort by the comparator (modelling the stable JS `Array.prototype.sort`), and
keep the first 4 entries. -/
noncomputable def checkCollisions (prevCollisions : List Collision)
    (objects : List SpaceObject) : List Collision :=
  (((uniqueCollisions (allCollisionsOf prevCollisions objects)).mergeSort
      fun a b => decide (collisionCmp a b ≤ 0)).take 4)

/-- The ordered pair enumeration `(i, j)` with `i < j` in insertion order,
expressed structurally over the list of bodies. -/
def allPairs : List SpaceObject → List (SpaceObject × SpaceObject)
  | [] => []
  | x :: xs => (xs.map fun y => (x, y)) ++ allPairs xs

/-- Structural form of first-occurrence key de-duplication: keep the head and
recurse on the tail purged of the head's key. -/
def dedupKeys : List Collision → List Collision
  | [] => []
  | x :: xs => x :: dedupKeys (xs.filter fun y => !(sameKey y x))
  termination_by l => l.length
  decreasing_by
    simp only [List.length_cons]
    exact Nat.lt_succ_of_le (List.length_filter_le _ _)

/-- Index-based first-occurrence filtering relative to a set of discarded
(`bad`) elements; `uniqueCollisions` is the instance with nothing discarded. -/
def keepIndexed (l : List Collision) (bad : Collision → Bool) : List Collision :=
  (List.range l.length).filterMap fun i =>
    match l[i]? with
    | some c =>
        if bad c = false ∧ l.findIdx (fun c2 => sameKey c2 c) = i then some c
        else none
    | none => none

/-! Helper lemmas about the index-based loops. -/

theorem filterMap_lookup_range {α β : Type _} (xs : List α) (g : α → Option β) :
    ((List.range xs.length).filterMap fun j =>
        match xs[j]? with
        | some a => g a
        | none => none) = xs.filterMap g := by
  induction xs with
  | nil => rfl
  | cons y ys ih =>
    rw [List.length_cons, List.range_succ_eq_map, List.filterMap_cons]
    rw [List.filterMap_map]
    have hcomp :
        ((fun j =>
            match (y :: ys)[j]? with
            | some a => g a
            | none => none) ∘ Nat.succ)
          = fun j =>
            match ys[j]? with
            | some a => g a
            | none => none := by
      funext j
      simp [Function.comp]
    rw [hcomp, ih]
    cases hg : g y <;> simp [hg, List.filterMap_cons]

theorem detectCollisions_cons (x : SpaceObject) (xs : List SpaceObject) :
    detectCollisions (x :: xs) =
      (xs.filterMap fun y => pairEvent x y) ++ detectCollisions xs := by
  unfold detectCollisions
  rw [List.length_cons, List.range_succ_eq_map, List.flatMap_cons, List.flatMap_map]
  congr 1
  · -- the `i = 0` round of the outer loop
    rw [show (0 + 1 : ℕ) = 1 from rfl, Nat.add_sub_cancel, List.range'_eq_map_range,
      List.filterMap_map]
    refine (List.filterMap_congr fun j _ => ?_).trans
      (filterMap_lookup_range xs fun y => pairEvent x y)
    have h1 : (1 + j : ℕ) = j + 1 := Nat.add_comm 1 j
    simp only [Function.comp_apply, h1, List.getElem?_cons_succ, List.getElem?_cons_zero]
    cases h : xs[j]? <;> simp [h]
  · -- the remaining rounds, reindexed over the tail
    refine List.flatMap_congr fun i _ => ?_
    have hlen : (x :: xs).length - (Nat.succ i + 1) = xs.length - (i + 1) := by
      simp only [List.length_cons]
      omega
    have hrange : List.range' (Nat.succ i + 1) (xs.length - (i + 1))
        = (List.range' (i + 1) (xs.length - (i + 1))).map (1 + ·) := by
      rw [List.map_add_range']
      congr 1
      omega
    rw [List.length_cons] at hlen
    rw [hlen, hrange, List.filterMap_map]
    refine List.filterMap_congr fun j _ => ?_
    have h1 : (1 + j : ℕ) = j + 1 := Nat.add_comm 1 j
    simp only [Function.comp_apply, h1, Nat.succ_eq_add_one, List.getElem?_cons_succ]

theorem detectCollisions_eq_allPairs (objects : List SpaceObject) :
    detectCollisions objects
      = (allPairs objects).filterMap fun p => pairEvent p.1 p.2 := by
  induction objects with
  | nil => rfl
  | cons x xs ih =>
    rw [detectCollisions_cons, ih]
    show _ = ((xs.map fun y => (x, y)) ++ allPairs xs).filterMap _
    rw [List.filterMap_append, List.filterMap_map]
    rfl

theorem detectCollisions_nil : detectCollisions [] = [] := rfl

theorem detectCollisions_singleton (b : SpaceObject) : detectCollisions [b] = [] := by
  rw [detectCollisions_cons]
  rfl

theorem predictCollisions_zero (objects : List SpaceObject) (stepSize : ℝ) :
    predictCollisions objects 0 stepSize = [] := rfl

theorem predictCollisions_succ (objects : List SpaceObject) (n : ℕ) (stepSize : ℝ) :
    predictCollisions objects (n + 1) stepSize
      = predictCollisions objects n stepSize ++
          ((detectCollisions (futureObjects objects (n + 1) stepSize)).map fun c =>
            { c with timeToCollision := some (((n + 1 : ℕ) : ℝ) * stepSize) }) := by
  unfold predictCollisions
  rw [List.range'_concat, List.flatMap_append]
  have h1 : (1 + 1 * n : ℕ) = n + 1 := by omega
  rw [h1]
  simp

theorem predictCollisions_nil (n : ℕ) (stepSize : ℝ) :
    predictCollisions [] n stepSize = [] := by
  induction n with
  | zero => rfl
  | succ n ih =>
    rw [predictCollisions_succ, ih]
    simp [futureObjects, detectCollisions_nil]

theorem predictCollisions_singleton (b : SpaceObject) (n : ℕ) (stepSize : ℝ) :
    predictCollisions [b] n stepSize = [] := by
  induction n with
  | zero => rfl
  | succ n ih =>
    rw [predictCollisions_succ, ih]
    simp [futureObjects, detectCollisions_singleton]

/-- C6: `detectCollisions` returns its events in insertion order of the pair
iteration `(i, j)` with `i < j` over the input list and performs no
de-duplication — it is exactly the filter of the ordered pair enumeration,
each colliding pair contributing its one event in that order; and
`predictCollisions` is the concatenation of per-step detector results in
increasing step order, each additional step appending its tagged events at
the end. -/
theorem detect_insertion_order_predict_concat (objects : List SpaceObject) :
    (detectCollisions objects
        = (allPairs objects).filterMap fun p => pairEvent p.1 p.2) ∧
    ∀ (n : ℕ) (stepSize : ℝ),
      predictCollisions objects (n + 1) stepSize
        = predictCollisions objects n stepSize ++
            ((detectCollisions (futureObjects objects (n + 1) stepSize)).map fun c =>
              { c with timeToCollision := some (((n + 1 : ℕ) : ℝ) * stepSize) }) := by
  exact ⟨detectCollisions_eq_allPairs objects,
    fun n stepSize => predictCollisions_succ objects n stepSize⟩

/-- C8: degenerate input never errors and yields empty results: zero steps,
zero bodies or a single body all produce `[]` from the predictor, and the
detector returns `[]` on zero or one body. -/
theorem degenerate_inputs_empty :
    (∀ (objects : List SpaceObject) (stepSize : ℝ),
        predictCollisions objects 0 stepSize = []) ∧
    (∀ (n : ℕ) (stepSize : ℝ), predictCollisions [] n stepSize = []) ∧
    (∀ (b : SpaceObject) (n : ℕ) (stepSize : ℝ),
        predictCollisions [b] n stepSize = []) ∧
    detectCollisions [] = [] ∧
    (∀ b : SpaceObject, detectCollisions [b] = []) := by
  refine ⟨fun objects stepSize => predictCollisions_zero objects stepSize,
    fun n stepSize => predictCollisions_nil n stepSize,
    fun b n stepSize => predictCollisions_singleton b n stepSize,
    detectCollisions_nil, fun b => detectCollisions_singleton b⟩

theorem MIN_ORBIT_DISTANCE_eq : MIN_ORBIT_DISTANCE = 1.5 := by
  unfold MIN_ORBIT_DISTANCE MIN_ORBIT_RADIUS EARTH_RADIUS
  rw [one_mul, one_mul]
  exact max_eq_right (by norm_num)

theorem MIN_ORBIT_DISTANCE_pos : 0 < MIN_ORBIT_DISTANCE := by
  rw [MIN_ORBIT_DISTANCE_eq]
  norm_num

/-- C1: the `useFrame` propagation returns exactly the closed-form position
of §4.1: mean angle `t * speed + phase`, clamped semi-major axis, derived
semi-minor axis, single-axis inclination tilt, followed by the step-6 radial
re-clamp that rescales the vector to magnitude `MIN_ORBIT_DISTANCE` whenever
its magnitude is below it. -/
theorem propagate_eq_specPosition (body : SpaceObject) (t : ℝ) :
    propagate body t = specPosition body t := by
  simp only [propagate, specPosition, pow_two]
  split_ifs with h
  · rw [max_eq_right h.le]
  · have hle := not_lt.1 h
    have hne := (MIN_ORBIT_DISTANCE_pos.trans_le hle).ne'
    rw [max_eq_left hle, div_self hne, mul_one, mul_one, mul_one]

/-- C2 (amended): the per-step propagation inside `predictCollisions` equals
the §4.1 Propagator at `t = step * stepSize` WITHOUT step 6 — it computes
the closed-form position but never applies the radial re-clamp. -/
theorem predictedPosition_eq_preClamp (obj : SpaceObject) (step : ℕ) (stepSize : ℝ) :
    predictedPosition obj step stepSize
      = preClampPosition obj ((step : ℝ) * stepSize) := rfl

/-- The concrete body refuting C2 as stated: an eccentric orbit whose
pre-clamp position dips below `MIN_ORBIT_DISTANCE`. -/
noncomputable def cexBody : SpaceObject :=
  { id := "cex", name := "cex", type := ObjectType.debris, orbitRadius := 1.5,
    speed := 0, phase := Real.pi / 2, inclination := 0, size := 1,
    eccentricity := 3 / 5 }

theorem cexBody_sqrt : Real.sqrt (1 - cexBody.eccentricity * cexBody.eccentricity)
    = 4 / 5 := by
  rw [show (1 - cexBody.eccentricity * cexBody.eccentricity : ℝ) = (4 / 5) ^ 2 by
    simp [cexBody]; norm_num]
  exact Real.sqrt_sq (by norm_num)

theorem predictedPosition_cex_y : (predictedPosition cexBody 1 1).y = 6 / 5 := by
  simp only [predictedPosition, cexBody_sqrt]
  simp [cexBody, MIN_ORBIT_DISTANCE_eq, Real.sin_pi_div_two]
  norm_num

theorem propagate_cex_y : (propagate cexBody (((1 : ℕ) : ℝ) * 1)).y = 3 / 2 := by
  simp only [propagate, cexBody_sqrt]
  simp [cexBody, MIN_ORBIT_DISTANCE_eq, Real.sin_pi_div_two, Real.cos_pi_div_two]
  rw [show (1.5 * (4 / 5) * (1.5 * (4 / 5)) : ℝ) = (6 / 5) ^ 2 by norm_num]
  rw [Real.sqrt_sq (by norm_num)]
  rw [show max (6 / 5 : ℝ) (1.5 : ℝ) = 1.5 from max_eq_right (by norm_num)]
  norm_num

/-- C2 counterexample: at `step = 1`, `stepSize = 1`, the predictor's
per-step position for `cexBody` differs from the §4.1 Propagator's position
at `t = 1 * 1`, because the predictor skips the radial re-clamp. -/
theorem predict_step_skips_reclamp_cex :
    predictedPosition cexBody 1 1 ≠ propagate cexBody (((1 : ℕ) : ℝ) * 1) := by
  intro h
  have hy := (predictedPosition_cex_y.symm.trans (congrArg Vec3.y h)).trans propagate_cex_y
  norm_num at hy

theorem magnitude_scale (x y z s : ℝ) (hs : 0 ≤ s) :
    Real.sqrt (x * s * (x * s) + y * s * (y * s) + z * s * (z * s))
      = Real.sqrt (x * x + y * y + z * z) * s := by
  rw [show x * s * (x * s) + y * s * (y * s) + z * s * (z * s)
      = (x * x + y * y + z * z) * (s * s) by ring]
  have hsum : (0 : ℝ) ≤ x * x + y * y + z * z := by
    nlinarith [mul_self_nonneg x, mul_self_nonneg y, mul_self_nonneg z]
  rw [Real.sqrt_mul hsum, Real.sqrt_mul_self hs]

theorem semiMinor_pos (obj : SpaceObject) (he0 : 0 ≤ obj.eccentricity)
    (he1 : obj.eccentricity < 1) :
    0 < max obj.orbitRadius MIN_ORBIT_DISTANCE *
        Real.sqrt (1 - obj.eccentricity * obj.eccentricity) := by
  have ha : 0 < max obj.orbitRadius MIN_ORBIT_DISTANCE :=
    MIN_ORBIT_DISTANCE_pos.trans_le (le_max_right _ _)
  have he : 0 < 1 - obj.eccentricity * obj.eccentricity := by nlinarith
  exact mul_pos ha (Real.sqrt_pos.2 he)

theorem semiMinor_le_magnitude_preClamp (obj : SpaceObject) (t : ℝ)
    (he0 : 0 ≤ obj.eccentricity) (he1 : obj.eccentricity < 1) :
    max obj.orbitRadius MIN_ORBIT_DISTANCE *
        Real.sqrt (1 - obj.eccentricity * obj.eccentricity)
      ≤ magnitude (preClampPosition obj t) := by
  simp only [magnitude, preClampPosition]
  set a := max obj.orbitRadius MIN_ORBIT_DISTANCE with ha_def
  set r := Real.sqrt (1 - obj.eccentricity * obj.eccentricity) with hr_def
  set cθ := Real.cos (t * obj.speed + obj.phase) with hcθ
  set sθ := Real.sin (t * obj.speed + obj.phase) with hsθ
  set cI := Real.cos obj.inclination with hcI
  set sI := Real.sin obj.inclination with hsI
  have ha : 0 < a := MIN_ORBIT_DISTANCE_pos.trans_le (le_max_right _ _)
  have hr0 : 0 ≤ r := Real.sqrt_nonneg _
  have hr1 : r ≤ 1 := by
    rw [hr_def]
    exact Real.sqrt_le_one.mpr (by nlinarith)
  have hI : sI ^ 2 + cI ^ 2 = 1 := Real.sin_sq_add_cos_sq _
  have hθ : sθ ^ 2 + cθ ^ 2 = 1 := Real.sin_sq_add_cos_sq _
  have hb : 0 ≤ a * r := mul_nonneg ha.le hr0
  have hsq : (a * r) ^ 2
      ≤ a * cθ * cI * (a * cθ * cI) + a * r * sθ * (a * r * sθ) +
          a * cθ * sI * (a * cθ * sI) := by
    have h1r : 0 ≤ 1 - r ^ 2 := by nlinarith
    nlinarith [mul_nonneg (mul_nonneg h1r (sq_nonneg (a * cθ))) (le_of_lt ha),
      mul_nonneg h1r (sq_nonneg (a * cθ)), sq_nonneg (a * cθ), sq_nonneg (a * sθ)]
  calc a * r = Real.sqrt ((a * r) ^ 2) := (Real.sqrt_sq hb).symm
    _ ≤ _ := Real.sqrt_le_sqrt hsq

/-- C10: in the radial re-clamp the divisor is never zero — for eccentricity
in `[0, 1)` the pre-clamp magnitude is at least the (clamped) semi-minor
axis `a * sqrt(1 - e*e)`, which is strictly positive, so the division by
`distance` in the rescale is well-defined. -/
theorem reclamp_divisor_pos (obj : SpaceObject) (t : ℝ)
    (he0 : 0 ≤ obj.eccentricity) (he1 : obj.eccentricity < 1) :
    max obj.orbitRadius MIN_ORBIT_DISTANCE *
        Real.sqrt (1 - obj.eccentricity * obj.eccentricity)
      ≤ magnitude (preClampPosition obj t) ∧
    0 < max obj.orbitRadius MIN_ORBIT_DISTANCE *
        Real.sqrt (1 - obj.eccentricity * obj.eccentricity) := by
  exact ⟨semiMinor_le_magnitude_preClamp obj t he0 he1, semiMinor_pos obj he0 he1⟩

/-- C3: radius floor — for every body with eccentricity in `[0, 1)` and
every time, the magnitude of the position returned by the `useFrame`
propagation is at least `MIN_ORBIT_DISTANCE`. -/
theorem propagate_radius_floor (obj : SpaceObject) (t : ℝ)
    (he0 : 0 ≤ obj.eccentricity) (he1 : obj.eccentricity < 1) :
    MIN_ORBIT_DISTANCE ≤ magnitude (propagate obj t) := by
  have hble := semiMinor_le_magnitude_preClamp obj t he0 he1
  have hbpos := semiMinor_pos obj he0 he1
  have hd0 : 0 < magnitude (preClampPosition obj t) := hbpos.trans_le hble
  have hd0' : magnitude (preClampPosition obj t) ≠ 0 := hd0.ne'
  simp only [magnitude, preClampPosition] at hd0 hd0' ⊢
  simp only [propagate]
  rw [magnitude_scale _ _ _ _ (by positivity), mul_comm, div_mul_cancel₀ _ hd0']
  exact le_max_right _ _

theorem pairEvent_none_left {o1 : SpaceObject} (o2 : SpaceObject)
    (h : o1.position = none) : pairEvent o1 o2 = none := by
  cases h2 : o2.position <;> simp [pairEvent, h, h2]

theorem pairEvent_none_right (o1 : SpaceObject) {o2 : SpaceObject}
    (h : o2.position = none) : pairEvent o1 o2 = none := by
  cases h1 : o1.position <;> simp [pairEvent, h, h1]

theorem filterMap_filter_eq {α β : Type _} (l : List α) (q : α → Bool) (f : α → Option β)
    (h : ∀ y, q y = false → f y = none) :
    (l.filter q).filterMap f = l.filterMap f := by
  induction l with
  | nil => rfl
  | cons y ys ih =>
    cases hq : q y with
    | true => simp [List.filter_cons, hq, List.filterMap_cons, ih]
    | false => simp [List.filter_cons, hq, List.filterMap_cons, h y hq, ih]

/-- C4: the collision threshold is strict — a pair of bodies with positions
exactly at `distance = size1 + size2` produces no event, and a pair strictly
below the threshold produces exactly its one event. -/
theorem detect_strict_threshold (o1 o2 : SpaceObject) (p1 p2 : Vec3)
    (h1 : o1.position = some p1) (h2 : o2.position = some p2) :
    (distanceTo p1 p2 = o1.size + o2.size →
      pairEvent o1 o2 = none ∧ detectCollisions [o1, o2] = []) ∧
    (distanceTo p1 p2 < o1.size + o2.size →
      pairEvent o1 o2 = some { obj1 := o1, obj2 := o2, distance := distanceTo p1 p2 } ∧
      detectCollisions [o1, o2]
        = [{ obj1 := o1, obj2 := o2, distance := distanceTo p1 p2 }]) := by
  constructor
  · intro heq
    have hne : ¬ distanceTo p1 p2 < o1.size + o2.size := by
      rw [heq]
      exact lt_irrefl _
    have hpe : pairEvent o1 o2 = none := by
      simp only [pairEvent, h1, h2]
      exact if_neg hne
    refine ⟨hpe, ?_⟩
    rw [detectCollisions_cons, detectCollisions_singleton]
    simp [List.filterMap_cons, hpe]
  · intro hlt
    have hpe : pairEvent o1 o2
        = some { obj1 := o1, obj2 := o2, distance := distanceTo p1 p2 } := by
      simp only [pairEvent, h1, h2]
      exact if_pos hlt
    refine ⟨hpe, ?_⟩
    rw [detectCollisions_cons, detectCollisions_singleton]
    simp [List.filterMap_cons, hpe]

/-- A body at the origin with size `1/2`, for the threshold witness. -/
noncomputable def wEq1 : SpaceObject :=
  { id := "w1", name := "w1", type := ObjectType.satellite, orbitRadius := 2,
    speed := 0, phase := 0, inclination := 0, size := 1 / 2, eccentricity := 0,
    position := some ⟨0, 0, 0⟩ }

/-- A body at distance `1` from the origin with size `1/2`. -/
noncomputable def wEq2 : SpaceObject :=
  { id := "w2", name := "w2", type := ObjectType.satellite, orbitRadius := 2,
    speed := 0, phase := 0, inclination := 0, size := 1 / 2, eccentricity := 0,
    position := some ⟨1, 0, 0⟩ }

theorem detect_strict_threshold_witness :
    pairEvent wEq1 wEq2 = none ∧ detectCollisions [wEq1, wEq2] = [] := by
  refine (detect_strict_threshold wEq1 wEq2 ⟨0, 0, 0⟩ ⟨1, 0, 0⟩ rfl rfl).1 ?_
  show distanceTo ⟨0, 0, 0⟩ ⟨1, 0, 0⟩ = wEq1.size + wEq2.size
  rw [show distanceTo ⟨0, 0, 0⟩ ⟨1, 0, 0⟩ = Real.sqrt 1 by
    unfold distanceTo
    norm_num]
  rw [Real.sqrt_one]
  show (1 : ℝ) = 1 / 2 + 1 / 2
  norm_num

/-- C9: a body with no recorded position participates in no collision
events — its pairs are skipped without error, and the detector's output on
any list equals its output on the sublist of bodies that do have positions
(all other pairs are still tested normally). -/
theorem detect_skips_missing_position (objects : List SpaceObject)
    (o1 o2 : SpaceObject) (h : o1.position = none ∨ o2.position = none) :
    pairEvent o1 o2 = none ∧
    detectCollisions objects
      = detectCollisions (objects.filter fun o => o.position.isSome) := by
  constructor
  · rcases h with h | h
    · exact pairEvent_none_left o2 h
    · exact pairEvent_none_right o1 h
  · clear h
    induction objects with
    | nil => rfl
    | cons x xs ih =>
      rw [detectCollisions_cons]
      cases hx : x.position.isSome with
      | false =>
        have hxnone : x.position = none := by
          cases hp : x.position
          · rfl
          · rw [hp] at hx
            simp at hx
        have hall : (xs.filterMap fun y => pairEvent x y) = [] := by
          rw [List.filterMap_eq_nil_iff]
          intro y _
          exact pairEvent_none_left y hxnone
        rw [hall, List.nil_append, ih,
          show ((x :: xs).filter fun o => o.position.isSome)
              = xs.filter fun o => o.position.isSome by simp [List.filter_cons, hx]]
      | true =>
        rw [show ((x :: xs).filter fun o => o.position.isSome)
            = x :: (xs.filter fun o => o.position.isSome) by simp [List.filter_cons, hx]]
        rw [detectCollisions_cons]
        have hpairs : ((xs.filter fun o => o.position.isSome).filterMap fun y =>
            pairEvent x y) = xs.filterMap fun y => pairEvent x y := by
          refine filterMap_filter_eq xs _ _ fun y hy => ?_
          have hynone : y.position = none := by
            cases hp : y.position
            · rfl
            · rw [hp] at hy
              simp at hy
          exact pairEvent_none_right x hynone
        rw [hpairs, ih]

/-- A body whose position was never recorded, for the C9 witness. -/
noncomputable def noPosBody : SpaceObject :=
  { id := "nopos", name := "nopos", type := ObjectType.debris, orbitRadius := 2,
    speed := 0, phase := 0, inclination := 0, size := 1, eccentricity := 0 }

theorem detect_skips_missing_position_witness :
    pairEvent noPosBody wEq2 = none ∧
    detectCollisions [noPosBody, wEq2]
      = detectCollisions ([noPosBody, wEq2].filter fun o => o.position.isSome) :=
  detect_skips_missing_position [noPosBody, wEq2] noPosBody wEq2 (Or.inl rfl)

theorem propagate_radius_floor_witness :
    MIN_ORBIT_DISTANCE ≤ magnitude (propagate wEq1 0) :=
  propagate_radius_floor wEq1 0 (by norm_num [wEq1]) (by norm_num [wEq1])

theorem reclamp_divisor_pos_witness :
    max wEq1.orbitRadius MIN_ORBIT_DISTANCE *
        Real.sqrt (1 - wEq1.eccentricity * wEq1.eccentricity)
      ≤ magnitude (preClampPosition wEq1 0) ∧
    0 < max wEq1.orbitRadius MIN_ORBIT_DISTANCE *
        Real.sqrt (1 - wEq1.eccentricity * wEq1.eccentricity) :=
  reclamp_divisor_pos wEq1 0 (by norm_num [wEq1]) (by norm_num [wEq1])

/-- C5: every event returned by the predictor carries
`timeToCollision = step * stepSize` for the step at which it was detected,
with `step` in `1..=timeSteps`; in particular no predicted event lacks the
field. -/
theorem predict_timeToCollision (objects : List SpaceObject) (timeSteps : ℕ)
    (stepSize : ℝ) (c : Collision)
    (hc : c ∈ predictCollisions objects timeSteps stepSize) :
    ∃ step : ℕ, 1 ≤ step ∧ step ≤ timeSteps ∧
      c.timeToCollision = some ((step : ℝ) * stepSize) := by
  unfold predictCollisions at hc
  rw [List.mem_flatMap] at hc
  obtain ⟨step, hstep, hmem⟩ := hc
  rw [List.mem_range'_1] at hstep
  rw [List.mem_map] at hmem
  obtain ⟨c0, _, hc0⟩ := hmem
  exact ⟨step, hstep.1, by omega, by rw [← hc0]⟩

/-- First of the always-colliding pair used for the predictor witnesses. -/
noncomputable def wColA : SpaceObject :=
  { id := "colA", name := "colA", type := ObjectType.satellite, orbitRadius := 2,
    speed := 0, phase := 0, inclination := 0, size := 1, eccentricity := 0 }

/-- Second of the always-colliding pair used for the predictor witnesses. -/
noncomputable def wColB : SpaceObject :=
  { id := "colB", name := "colB", type := ObjectType.asteroid, orbitRadius := 2,
    speed := 0, phase := 0, inclination := 0, size := 1, eccentricity := 0 }

/-- The single event produced by `predictCollisions [wColA, wColB] 1 1`. -/
noncomputable def wColEvent : Collision :=
  { obj1 := { wColA with position := some ⟨2, 0, 0⟩ }
    obj2 := { wColB with position := some ⟨2, 0, 0⟩ }
    distance := 0
    timeToCollision := some 1 }

theorem predictedPosition_wColA : predictedPosition wColA 1 1 = ⟨2, 0, 0⟩ := by
  simp [predictedPosition, wColA, MIN_ORBIT_DISTANCE_eq, Real.sqrt_one]
  norm_num

theorem predictedPosition_wColB : predictedPosition wColB 1 1 = ⟨2, 0, 0⟩ := by
  simp [predictedPosition, wColB, MIN_ORBIT_DISTANCE_eq, Real.sqrt_one]
  norm_num

theorem distanceTo_self_200 : distanceTo ⟨2, 0, 0⟩ ⟨2, 0, 0⟩ = 0 := by
  unfold distanceTo
  norm_num

theorem predict_eval : predictCollisions [wColA, wColB] 1 1 = [wColEvent] := by
  have hfut : futureObjects [wColA, wColB] 1 1
      = [{ wColA with position := some ⟨2, 0, 0⟩ },
         { wColB with position := some ⟨2, 0, 0⟩ }] := by
    simp [futureObjects, predictedPosition_wColA, predictedPosition_wColB]
  have hpe : pairEvent { wColA with position := some ⟨2, 0, 0⟩ }
      { wColB with position := some ⟨2, 0, 0⟩ }
      = some { obj1 := { wColA with position := some ⟨2, 0, 0⟩ }
               obj2 := { wColB with position := some ⟨2, 0, 0⟩ }
               distance := 0 } := by
    simp only [pairEvent]
    rw [distanceTo_self_200]
    rw [if_pos (by simp [wColA, wColB])]
  have hdet : detectCollisions [{ wColA with position := some ⟨2, 0, 0⟩ },
      { wColB with position := some ⟨2, 0, 0⟩ }]
      = [{ obj1 := { wColA with position := some ⟨2, 0, 0⟩ }
           obj2 := { wColB with position := some ⟨2, 0, 0⟩ }
           distance := 0 }] := by
    rw [detectCollisions_cons, detectCollisions_singleton]
    simp [List.filterMap_cons, hpe]
  unfold predictCollisions
  rw [show List.range' 1 1 = [1] from rfl]
  simp [hfut, hdet, wColEvent]

theorem predict_timeToCollision_witness :
    ∃ step : ℕ, 1 ≤ step ∧ step ≤ 1 ∧
      wColEvent.timeToCollision = some ((step : ℝ) * 1) :=
  predict_timeToCollision [wColA, wColB] 1 1 wColEvent
    (by rw [predict_eval]; exact List.mem_singleton_self _)

theorem sameKey_iff (c d : Collision) :
    sameKey c d = true ↔ c.obj1.id = d.obj1.id ∧ c.obj2.id = d.obj2.id := by
  simp [sameKey]

theorem sameKey_refl (c : Collision) : sameKey c c = true := by
  simp [sameKey]

theorem sameKey_comm (c d : Collision) : sameKey c d = sameKey d c := by
  simp only [sameKey]
  rw [@Bool.beq_comm _ _ _ c.obj1.id, @Bool.beq_comm _ _ _ c.obj2.id]

theorem sameKey_false_of_left (y x c : Collision) (hyx : sameKey y x = true)
    (hcx : sameKey c x = false) : sameKey y c = false := by
  cases h : sameKey y c with
  | false => rfl
  | true =>
    exfalso
    rw [sameKey_iff] at hyx h
    have : sameKey c x = true :=
      (sameKey_iff c x).mpr ⟨h.1.symm.trans hyx.1, h.2.symm.trans hyx.2⟩
    rw [hcx] at this
    exact Bool.false_ne_true this

theorem keepIndexed_cons (y : Collision) (ys : List Collision) (bad : Collision → Bool) :
    keepIndexed (y :: ys) bad
      = (if bad y = false then [y] else []) ++
          keepIndexed ys fun c => bad c || sameKey c y := by
  unfold keepIndexed
  rw [List.length_cons, List.range_succ_eq_map, List.filterMap_cons, List.filterMap_map]
  have hfind0 : (y :: ys).findIdx (fun c2 => sameKey c2 y) = 0 := by
    rw [List.findIdx_cons, sameKey_refl]
    rfl
  have htail :
      ((List.range ys.length).filterMap
        ((fun i =>
          match (y :: ys)[i]? with
          | some c =>
              if bad c = false ∧ (y :: ys).findIdx (fun c2 => sameKey c2 c) = i then
                some c
              else none
          | none => none) ∘ Nat.succ))
      = (List.range ys.length).filterMap fun i =>
          match ys[i]? with
          | some c =>
              if (bad c || sameKey c y) = false ∧
                  ys.findIdx (fun c2 => sameKey c2 c) = i then
                some c
              else none
          | none => none := by
    refine List.filterMap_congr fun j _ => ?_
    simp only [Function.comp_apply, Nat.succ_eq_add_one, List.getElem?_cons_succ]
    cases hc : ys[j]? with
    | none => rfl
    | some c =>
      cases hyc : sameKey y c with
      | true =>
        have hcy : sameKey c y = true := (sameKey_comm c y).trans hyc
        simp [List.findIdx_cons, hyc, hcy]
      | false =>
        have hcy : sameKey c y = false := (sameKey_comm c y).trans hyc
        simp [List.findIdx_cons, hyc, hcy]
  rw [htail]
  simp only [List.getElem?_cons_zero, hfind0, eq_self_iff_true, and_true]
  cases hb : bad y with
  | true => simp [hb]
  | false => simp [hb]

theorem keepIndexed_eq_dedupKeys (l : List Collision) (bad : Collision → Bool)
    (hbad : ∀ y c, bad y = true → bad c = false → sameKey y c = false) :
    keepIndexed l bad = dedupKeys (l.filter fun c => !bad c) := by
  induction l generalizing bad with
  | nil => simp [keepIndexed, dedupKeys]
  | cons y ys ih =>
    rw [keepIndexed_cons]
    cases hb : bad y with
    | true =>
      -- the head is discarded on both sides
      rw [show ((y :: ys).filter fun c => !bad c) = ys.filter fun c => !bad c by
        simp [List.filter_cons, hb]]
      have hfun : keepIndexed ys (fun c => bad c || sameKey c y)
          = keepIndexed ys bad := by
        unfold keepIndexed
        refine List.filterMap_congr fun j _ => ?_
        cases hc : ys[j]? with
        | none => rfl
        | some c =>
          cases hbc : bad c with
          | true => simp [hbc]
          | false =>
            have : sameKey c y = false := by
              rw [sameKey_comm]
              exact hbad y c hb hbc
            simp [hbc, this]
      rw [if_neg (by simp), List.nil_append, hfun, ih bad hbad]
    | false =>
      have hbad' : ∀ y' c, (bad y' || sameKey y' y) = true →
          (bad c || sameKey c y) = false → sameKey y' c = false := by
        intro y' c h1 h2
        rw [Bool.or_eq_false_iff] at h2
        rcases Bool.or_eq_true_iff.1 h1 with h1 | h1
        · exact hbad y' c h1 h2.1
        · exact sameKey_false_of_left y' y c h1 h2.2
      rw [show ((y :: ys).filter fun c => !bad c) = y :: (ys.filter fun c => !bad c) by
        simp [List.filter_cons, hb]]
      rw [dedupKeys, List.filter_filter]
      rw [ih (fun c => bad c || sameKey c y) hbad']
      rw [show (ys.filter fun c => !(bad c || sameKey c y))
          = ys.filter (fun c => (!sameKey c y && !bad c)) from
        List.filter_congr fun c _ => by rw [Bool.not_or, Bool.and_comm]]
      simp [hb]

theorem uniqueCollisions_eq_dedupKeys (l : List Collision) :
    uniqueCollisions l = dedupKeys l := by
  have h1 : uniqueCollisions l = keepIndexed l fun _ => false := by
    unfold uniqueCollisions keepIndexed
    refine List.filterMap_congr fun i _ => ?_
    cases hc : l[i]? with
    | none => rfl
    | some c => simp
  rw [h1, keepIndexed_eq_dedupKeys l _ fun y c hy _ => absurd hy (by simp)]
  congr 1
  simp

theorem dedupKeys_subset (l : List Collision) : ∀ c ∈ dedupKeys l, c ∈ l := by
  induction l using dedupKeys.induct with
  | case1 =>
    intro c hc
    rw [dedupKeys] at hc
    cases hc
  | case2 x xs ih =>
    intro c hc
    rw [dedupKeys] at hc
    rcases List.mem_cons.1 hc with rfl | hc
    · exact List.mem_cons_self _ _
    · exact List.mem_cons_of_mem _ (List.mem_of_mem_filter (ih c hc))

theorem find?_filter_eq {α : Type _} (l : List α) (q p : α → Bool)
    (h : ∀ y, q y = false → p y = false) :
    (l.filter q).find? p = l.find? p := by
  induction l with
  | nil => rfl
  | cons y ys ih =>
    cases hq : q y with
    | true =>
      cases hp : p y with
      | true => simp [List.filter_cons, hq, List.find?_cons, hp]
      | false => simp [List.filter_cons, hq, List.find?_cons, hp, ih]
    | false =>
      have hp := h y hq
      simp [List.filter_cons, hq, List.find?_cons, hp, ih]

theorem dedupKeys_find? (l : List Collision) :
    ∀ c ∈ dedupKeys l, l.find? (fun d => sameKey d c) = some c := by
  induction l using dedupKeys.induct with
  | case1 =>
    intro c hc
    rw [dedupKeys] at hc
    cases hc
  | case2 x xs ih =>
    intro c hc
    rw [dedupKeys] at hc
    rcases List.mem_cons.1 hc with rfl | hc
    · exact List.find?_cons_of_pos _ (sameKey_refl c)
    · have hmem := dedupKeys_subset _ c hc
      have hcx : sameKey c x = false := by
        simpa using (List.mem_filter.1 hmem).2
      have hxc : sameKey x c = false := (sameKey_comm x c).trans hcx
      have hside : ∀ y, (!(sameKey y x)) = false → (fun d => sameKey d c) y = false := by
        intro y hy
        have hyx : sameKey y x = true := by simpa using hy
        exact sameKey_false_of_left y x c hyx hcx
      rw [List.find?_cons_of_neg _ (by simp [hxc])]
      rw [← find?_filter_eq xs _ _ hside]
      exact ih c hc

theorem dedupKeys_pairwise (l : List Collision) :
    (dedupKeys l).Pairwise fun a b => sameKey a b = false := by
  induction l using dedupKeys.induct with
  | case1 =>
    rw [dedupKeys]
    exact List.Pairwise.nil
  | case2 x xs ih =>
    rw [dedupKeys]
    refine List.pairwise_cons.2 ⟨?_, ih⟩
    intro b hb
    have hbx : sameKey b x = false := by
      simpa using (List.mem_filter.1 (dedupKeys_subset _ b hb)).2
    exact (sameKey_comm x b).trans hbx

/-- C7 (amended): the consumer's merge keeps at most one event per ordered
`(obj1.id, obj2.id)` pair, keeping for each pair the FIRST occurrence in the
merged order previous ++ current ++ predicted (an earlier event takes
precedence, not the soonest); the de-duplicated list is then sorted by the
comparator and truncated to at most 4 events. -/
theorem checkCollisions_merge_spec (prevCollisions : List Collision)
    (objects : List SpaceObject) :
    (checkCollisions prevCollisions objects).length ≤ 4 ∧
    (checkCollisions prevCollisions objects).Pairwise
      (fun a b => sameKey a b = false) ∧
    ∀ c ∈ checkCollisions prevCollisions objects,
      (allCollisionsOf prevCollisions objects).find? (fun d => sameKey d c)
        = some c := by
  have hout : checkCollisions prevCollisions objects
      = ((uniqueCollisions (allCollisionsOf prevCollisions objects)).mergeSort
          fun a b => decide (collisionCmp a b ≤ 0)).take 4 := rfl
  have huniq := uniqueCollisions_eq_dedupKeys (allCollisionsOf prevCollisions objects)
  have hperm : List.Perm
      ((dedupKeys (allCollisionsOf prevCollisions objects)).mergeSort
        fun a b => decide (collisionCmp a b ≤ 0))
      (dedupKeys (allCollisionsOf prevCollisions objects)) :=
    List.mergeSort_perm _ _
  refine ⟨?_, ?_, ?_⟩
  · rw [hout, List.length_take]
    exact min_le_left _ _
  · rw [hout, huniq]
    have hsym : ∀ {a b : Collision}, sameKey a b = false → sameKey b a = false :=
      fun {a b} h => (sameKey_comm b a).trans h
    exact List.Pairwise.sublist (List.take_sublist _ _)
      ((List.Perm.pairwise_iff hsym hperm).2 (dedupKeys_pairwise _))
  · intro c hc
    rw [hout, huniq] at hc
    exact dedupKeys_find? _ c (hperm.mem_iff.1 (List.mem_of_mem_take hc))

/-- A previous-cycle event for the pair (colA, colB), used for C7. -/
noncomputable def cexE1 : Collision :=
  { obj1 := wColA, obj2 := wColB, distance := 5, timeToCollision := some 2 }

/-- A sooner event for the same unordered pair in the opposite orientation. -/
noncomputable def cexE2 : Collision :=
  { obj1 := wColB, obj2 := wColA, distance := 5, timeToCollision := some (1 / 20) }

theorem allCollisionsOf_cex :
    allCollisionsOf [cexE1, cexE2] [] = [cexE1, cexE2] := by
  unfold allCollisionsOf
  rw [detectCollisions_nil, predictCollisions_nil]
  simp

theorem sameKey_cexE2_cexE1 : sameKey cexE2 cexE1 = false := by
  simp [sameKey, cexE1, cexE2, wColA, wColB]

/-- C7 counterexample: merging a previous event for the ordered pair
(colA, colB) with `timeToCollision = 2` and an opposite-orientation event
with `timeToCollision = 1/20` keeps BOTH — two events for the same unordered
pair survive, and the kept (colA, colB) event is not the soonest. -/
theorem checkCollisions_cex :
    cexE1 ∈ checkCollisions [cexE1, cexE2] [] ∧
    cexE2 ∈ checkCollisions [cexE1, cexE2] [] ∧
    cexE1.obj1.id = cexE2.obj2.id ∧ cexE1.obj2.id = cexE2.obj1.id ∧
    cexE1.timeToCollision = some 2 ∧ cexE2.timeToCollision = some (1 / 20) ∧
    cexE1 ≠ cexE2 := by
  have huniq : uniqueCollisions [cexE1, cexE2] = [cexE1, cexE2] := by
    rw [uniqueCollisions_eq_dedupKeys, dedupKeys]
    simp [dedupKeys, List.filter_cons, sameKey_cexE2_cexE1]
  have hlen2 : (([cexE1, cexE2]).mergeSort
      fun a b => decide (collisionCmp a b ≤ 0)).length = 2 := by
    rw [List.length_mergeSort]
    rfl
  have htake : checkCollisions [cexE1, cexE2] []
      = ([cexE1, cexE2].mergeSort fun a b => decide (collisionCmp a b ≤ 0)) := by
    show ((uniqueCollisions (allCollisionsOf [cexE1, cexE2] [])).mergeSort
        fun a b => decide (collisionCmp a b ≤ 0)).take 4 = _
    rw [allCollisionsOf_cex, huniq]
    exact List.take_of_length_le (by rw [hlen2]; norm_num)
  refine ⟨?_, ?_, rfl, rfl, rfl, rfl, ?_⟩
  · rw [htake]
    exact List.mem_mergeSort.2 (by simp)
  · rw [htake]
    exact List.mem_mergeSort.2 (by simp)
  · intro h
    have hid := congrArg (fun c => c.obj1.id) h
    simp [cexE1, cexE2, wColA, wColB] at hid

theorem checkCollisions_merge_spec_witness :
    (checkCollisions [cexE1] []).length ≤ 4 ∧
    (allCollisionsOf [cexE1] []).find? (fun d => sameKey d cexE1) = some cexE1 := by
  have hall : allCollisionsOf [cexE1] [] = [cexE1] := by
    unfold allCollisionsOf
    rw [detectCollisions_nil, predictCollisions_nil]
    simp
  have huniq : uniqueCollisions [cexE1] = [cexE1] := by
    rw [uniqueCollisions_eq_dedupKeys, dedupKeys]
    simp [dedupKeys]
  have hmem : cexE1 ∈ checkCollisions [cexE1] [] := by
    show cexE1 ∈ ((uniqueCollisions (allCollisionsOf [cexE1] [])).mergeSort
        fun a b => decide (collisionCmp a b ≤ 0)).take 4
    rw [hall, huniq, List.mergeSort_singleton]
    simp
  exact ⟨(checkCollisions_merge_spec [cexE1] []).1,
    (checkCollisions_merge_spec [cexE1] []).2.2 cexE1 hmem⟩

end Spaceapp
